import Mathlib

/-!
Verification development for the ocicni CNI plugin manager
(`pkg/ocicni/ocicni.go`).  The Go source is shallowly embedded: pure
helpers become Lean functions, the mutable plugin state becomes an
explicit `PluginState` record, the external CNI plugin-execution engine
and the namespace inspector become an explicit `Engine` record of
oracles, and every engine invocation / pod-lock transition performed by
an entry point is recorded in an explicit operation trace.
-/

set_option maxRecDepth 4000

/-! ## Data model -/

/-- One plugin entry of a network configuration list; we keep the only
field the manager inspects, `Network.Type`. -/
structure PluginConf where
  ptype : String
  deriving DecidableEq

/-- `libcni.NetworkConfigList`: a named, ordered chain of plugins. -/
structure NetworkConfigList where
  name : String
  plugins : List PluginConf
  deriving DecidableEq

/-- A single-plugin configuration (`libcni.NetworkConfig` as read from a
`.conf` file): a declared name (possibly empty) and a plugin type
(possibly empty). -/
structure NetworkConf where
  name : String
  ptype : String
  deriving DecidableEq

/-- Abstract content of a candidate config file, standing for what the
external libcni parsers would return for its bytes: unparseable, a
well-formed config list, or a well-formed single-plugin config. -/
inductive FileContent where
  | malformed : FileContent
  | confList (c : NetworkConfigList) : FileContent
  | conf (c : NetworkConf) : FileContent
  deriving DecidableEq

/-- A file of the config directory: its full path and abstract content. -/
structure ConfFile where
  path : String
  content : FileContent
  deriving DecidableEq

/-- `cniNetwork`: a loaded network: its registry name, its config list,
and the plugin search path of its `libcni.CNIConfig`. -/
structure cniNetwork where
  name : String
  NetworkConfig : NetworkConfigList
  path : List String
  deriving DecidableEq

/-- Modelled from the spec: the pod descriptor (`PodNetwork` lives in a
file of this repository that is not under `src/`): namespace, name, id,
namespace path, optional ordered explicit network-name list, optional
port-mapping list.  Field names follow the uses in `ocicni.go`. -/
structure PortMapping where
  raw : String
  deriving DecidableEq

/-- Modelled from the spec: pod identity and request payload
(`PodNetwork`, declared outside `src/`); fields as used by `ocicni.go`:
`Name`, `Namespace`, `ID`, `NetNS`, `Networks`, `PortMappings`. -/
structure PodNetwork where
  Name : String
  Namespace : String
  ID : String
  NetNS : String
  Networks : List String
  PortMappings : List PortMapping
  deriving DecidableEq

/-- Abstract opaque result returned by the plugin-execution engine for a
successful attach (`cnitypes.Result`). -/
structure CNIResult where
  raw : Nat
  deriving DecidableEq

/-- Result of the namespace inspector (`getContainerDetails`): the IPv4
address and the hardware address of an interface. -/
structure IPMac where
  ip : String
  mac : String
  deriving DecidableEq

/-- A status record synthesized by `GetPodNetworkStatus` (the manually
constructed `cnicurrent.Result`). -/
structure StatusResult where
  ifName : String
  mac : String
  sandbox : String
  ip : String
  deriving DecidableEq

/-- Errors surfaced by the orchestrator entry points. -/
inductive OpError where
  | uninitialized : OpError
  | networkNotFound (name : String) : OpError
  | engine (msg : String) : OpError
  | inspection (msg : String) : OpError
  deriving DecidableEq

/-- Errors of `loadNetworks`: directory scan failure, no candidate
files (`errMissingDefaultNetwork`), or every candidate rejected
(`No valid networks found`). -/
inductive LoadError where
  | confFilesErr : LoadError
  | missingDefaultNetwork : LoadError
  | noValidNetworks : LoadError
  deriving DecidableEq

/-- One observable step of an entry point: pod-lock transitions and
invocations of the external engine / inspector. -/
inductive Op where
  | lock (key : String) : Op
  | unlock (key : String) : Op
  | add (net : cniNetwork) (ifName : String) : Op
  | del (net : cniNetwork) (ifName : String) : Op
  | inspect (netns : String) (ifName : String) : Op
  deriving DecidableEq

/-- `libcni.RuntimeConf` as built by `buildCNIRuntimeConf`. -/
structure RuntimeConf where
  ContainerID : String
  NetNS : String
  IfName : String
  Args : List (String × String)
  CapabilityPortMappings : Option (List PortMapping)
  deriving DecidableEq

/-- The external collaborators, as oracles: `AddNetworkList`,
`DelNetworkList` (a `some msg` is a failure), and the namespace
inspector keyed by namespace path and interface name. -/
structure Engine where
  add : NetworkConfigList → List String → RuntimeConf → Except String CNIResult
  del : NetworkConfigList → List String → RuntimeConf → Option String
  inspect : String → String → Except String IPMac

/-- The mutable fields of `cniNetworkPlugin` the orchestrator reads:
the sticky default network name, the current registry, and the constant
loopback pseudo-network. -/
structure PluginState where
  defaultNetName : String
  networks : List (String × cniNetwork)
  loNetwork : cniNetwork
  deriving DecidableEq

/-! ## Association-list maps (Go `map[string]T` with insert/lookup/delete) -/

def mapLookup {α : Type} : List (String × α) → String → Option α
  | [], _ => none
  | (k', v) :: rest, k => if k' = k then some v else mapLookup rest k

def mapInsert {α : Type} : List (String × α) → String → α → List (String × α)
  | [], k, v => [(k, v)]
  | (k', v') :: rest, k, v =>
    if k' = k then (k, v) :: rest else (k', v') :: mapInsert rest k v

def mapDelete {α : Type} : List (String × α) → String → List (String × α)
  | [], _ => []
  | (k', v) :: rest, k =>
    if k' = k then mapDelete rest k else (k', v) :: mapDelete rest k

/-! ## ConfigStore: `loadNetworks` and its helpers -/

/-- Modelled from the spec: `VendorCNIDirTemplate` is declared outside
`src/`; the spec only fixes that the vendor search-path suffix is built
from a fixed prefix-and-plugin-type template.  We join prefix and plugin
type into one path string. -/
def vendorCNIDir (vendorPre ptype : String) : String :=
  vendorPre ++ "/opt/" ++ ptype ++ "/bin"

/-- Go `path.Base`: strip trailing slashes, then keep the part after the
last slash; empty input gives ".", all-slashes input gives "/". -/
def pathBase (p : String) : String :=
  if p = "" then "."
  else
    let chars := (p.data.reverse.dropWhile (fun c => c = '/')).reverse
    if chars.isEmpty then "/"
    else String.mk (chars.reverse.takeWhile (fun c => c ≠ '/')).reverse

def strSuffix (s suf : String) : Bool :=
  suf.data.isSuffixOf s.data

/-- Does the filename carry one of the recognized config extensions? -/
def hasConfExt (p : String) : Bool :=
  strSuffix p ".conf" || strSuffix p ".conflist" || strSuffix p ".json"

/-- `libcni.ConfFiles`: scan the directory (an `Except` input models a
missing/unreadable directory) and keep the files with a recognized
extension. -/
def confFiles (dir : Except Unit (List ConfFile)) : Except Unit (List ConfFile) :=
  dir.map (fun fs => fs.filter (fun f => hasConfExt f.path))

def charListLt : List Char → List Char → Bool
  | [], [] => false
  | [], _ :: _ => true
  | _ :: _, [] => false
  | a :: as, b :: bs => if a < b then true else if b < a then false else charListLt as bs

def strLt (a b : String) : Bool := charListLt a.data b.data

def insertSorted (f : ConfFile) : List ConfFile → List ConfFile
  | [] => [f]
  | g :: gs => if strLt g.path f.path then g :: insertSorted f gs else f :: g :: gs

/-- `sort.Strings(files)`: sort the candidate files by path. -/
def sortFiles : List ConfFile → List ConfFile
  | [] => []
  | f :: fs => insertSorted f (sortFiles fs)

/-- `libcni.ConfListFromFile`: succeeds only on config-list content. -/
def confListFromFile (f : ConfFile) : Option NetworkConfigList :=
  match f.content with
  | FileContent.confList c => some c
  | _ => none

/-- `libcni.ConfFromFile`: succeeds only on single-plugin content. -/
def confFromFile (f : ConfFile) : Option NetworkConf :=
  match f.content with
  | FileContent.conf c => some c
  | _ => none

/-- `libcni.ConfListFromConf`: wrap a single conf into a one-element
config list. -/
def confListFromConf (c : NetworkConf) : NetworkConfigList :=
  { name := c.name, plugins := [{ ptype := c.ptype }] }

/-- The per-file parse phase of the `loadNetworks` loop: `.conflist`
files go through `ConfListFromFile`; other files go through
`ConfFromFile`, are rejected when they declare no `type`, and are then
wrapped by `ConfListFromConf`.  `none` means the file is skipped. -/
def loadOneFile (f : ConfFile) : Option NetworkConfigList :=
  if strSuffix f.path ".conflist" then confListFromFile f
  else
    match confFromFile f with
    | none => none
    | some conf =>
      if conf.ptype = "" then none
      else some (confListFromConf conf)

/-- The body of the `loadNetworks` loop for one file, threading the
accumulated registry and the first-established default name: skip
unusable files; default an empty name to the file's base name; extend
the search path with one vendor directory per plugin; record the network
and, when no default is known yet, its name. -/
def processFile (cniDirs : List String) (vendorPre : String)
    (st : List (String × cniNetwork) × String) (f : ConfFile) :
    List (String × cniNetwork) × String :=
  match loadOneFile f with
  | none => st
  | some confList =>
    if confList.plugins = [] then st
    else
      let nm := if confList.name = "" then pathBase f.path else confList.name
      let confList' : NetworkConfigList := { confList with name := nm }
      let net : cniNetwork :=
        { name := nm
          NetworkConfig := confList'
          path := cniDirs ++ confList'.plugins.map (fun p => vendorCNIDir vendorPre p.ptype) }
      (mapInsert st.1 nm net, if st.2 = "" then nm else st.2)

def processFiles (cniDirs : List String) (vendorPre : String) :
    List ConfFile → (List (String × cniNetwork) × String) → List (String × cniNetwork) × String
  | [], st => st
  | f :: fs, st => processFiles cniDirs vendorPre fs (processFile cniDirs vendorPre st f)

/-- `loadNetworks`: scan, sort, process every candidate file, and fail
only when the directory is unreadable, matches no file, or yields no
usable network. -/
def loadNetworks (cniDirs : List String) (vendorPre : String)
    (dir : Except Unit (List ConfFile)) :
    Except LoadError (List (String × cniNetwork) × String) :=
  match confFiles dir with
  | Except.error _ => Except.error LoadError.confFilesErr
  | Except.ok files =>
    if files = [] then Except.error LoadError.missingDefaultNetwork
    else
      let st := processFiles cniDirs vendorPre (sortFiles files) ([], "")
      if st.1 = [] then Except.error LoadError.noValidNetworks
      else Except.ok st

/-- A file the `loadNetworks` loop turns into a registry entry: it has a
recognized extension, parses, and declares at least one plugin. -/
def usableFile (f : ConfFile) : Bool :=
  hasConfExt f.path &&
    (match loadOneFile f with
     | some c => decide (c.plugins ≠ [])
     | none => false)

/-- `getLoNetwork`: the constant loopback pseudo-network. -/
def getLoNetwork (cniDirs : List String) (vendorPre : String) : cniNetwork :=
  { name := "lo"
    NetworkConfig := { name := "cni-loopback", plugins := [{ ptype := "loopback" }] }
    path := cniDirs ++ [vendorCNIDir vendorPre "loopback"] }

/-- `syncNetworkConfig`: reload; on failure leave the state untouched
and report the error; on success replace the registry wholesale and
assign the default name only when none is set yet. -/
def syncNetworkConfig (cniDirs : List String) (vendorPre : String)
    (dir : Except Unit (List ConfFile)) (st : PluginState) :
    PluginState × Option LoadError :=
  match loadNetworks cniDirs vendorPre dir with
  | Except.error e => (st, some e)
  | Except.ok (networks, defaultNetName) =>
    ({ st with
        defaultNetName := if st.defaultNetName = "" then defaultNetName else st.defaultNetName
        networks := networks }, none)

/-- Iterated `syncNetworkConfig` over successive directory states (each
filesystem event triggers one resync). -/
def resyncAll (cniDirs : List String) (vendorPre : String) :
    PluginState → List (Except Unit (List ConfFile)) → PluginState
  | st, [] => st
  | st, d :: ds => resyncAll cniDirs vendorPre (syncNetworkConfig cniDirs vendorPre d st).1 ds

/-! ## PodLockTable: `podLock` / `podUnlock` bookkeeping -/

/-- What `podUnlock` logs: nothing, a warning for an unknown key, or an
error for a zero-refcount entry. -/
inductive UnlockLog where
  | ok : UnlockLog
  | warnUnknown : UnlockLog
  | errZero : UnlockLog
  deriving DecidableEq

/-- `buildFullPodName`: the pod-lock key. -/
def buildFullPodName (pod : PodNetwork) : String :=
  pod.Namespace ++ "_" ++ pod.Name

/-- The refcount bookkeeping of `podLock`: create the entry lazily
(refcount 0) and increment it. -/
def podLockAcquire (pods : List (String × Nat)) (key : String) : List (String × Nat) :=
  match mapLookup pods key with
  | none => mapInsert pods key 1
  | some rc => mapInsert pods key (rc + 1)

/-- The refcount bookkeeping of `podUnlock`: an unknown key only warns;
a zero-refcount entry is defensively deleted with an error log;
otherwise decrement and delete the entry when the count reaches zero. -/
def podLockRelease (pods : List (String × Nat)) (key : String) :
    List (String × Nat) × UnlockLog :=
  match mapLookup pods key with
  | none => (pods, UnlockLog.warnUnknown)
  | some 0 => (mapDelete pods key, UnlockLog.errZero)
  | some (rc + 1) =>
    (if rc = 0 then mapDelete pods key else mapInsert pods key rc, UnlockLog.ok)

/-- Run a sequence of lock-table operations; `(true, k)` acquires key
`k`, `(false, k)` releases it. -/
def runPodOps (pods : List (String × Nat)) : List (Bool × String) → List (String × Nat)
  | [] => pods
  | (true, k) :: rest => runPodOps (podLockAcquire pods k) rest
  | (false, k) :: rest => runPodOps (podLockRelease pods k).1 rest

/-- Net acquire/release count of a sequence for one key, starting from
`c`; `none` marks a release that outruns the acquires.  A sequence is
balanced for `key` when `runCount key 0 ops = some 0`. -/
def runCount (key : String) : Nat → List (Bool × String) → Option Nat
  | c, [] => some c
  | c, (acq, k) :: rest =>
    if k = key then
      if acq then runCount key (c + 1) rest
      else
        match c with
        | 0 => none
        | c' + 1 => runCount key c' rest
    else runCount key c rest

/-! ## NetworkOrchestrator -/

def getNetwork (plugin : PluginState) (name : String) : Except OpError cniNetwork :=
  match mapLookup plugin.networks name with
  | none => Except.error (OpError.networkNotFound name)
  | some net => Except.ok net

def getDefaultNetworkName (plugin : PluginState) : String :=
  plugin.defaultNetName

/-- `getDefaultNetwork`: `nil` when the name is unset or absent from the
registry (the lookup error is discarded). -/
def getDefaultNetwork (plugin : PluginState) : Option cniNetwork :=
  if getDefaultNetworkName plugin = "" then none
  else (getNetwork plugin (getDefaultNetworkName plugin)).toOption

/-- `checkInitialized`: fail when the request has no explicit networks
and no default network is resolvable. -/
def checkInitialized (plugin : PluginState) (pod : PodNetwork) : Option OpError :=
  if pod.Networks.isEmpty && (getDefaultNetwork plugin).isNone then
    some OpError.uninitialized
  else none

/-- The network list `forEachNetwork` iterates over: the explicit list
verbatim, or the single default name when the list is empty. -/
def resolveNames (plugin : PluginState) (pod : PodNetwork) : List String :=
  if pod.Networks.isEmpty then [getDefaultNetworkName plugin] else pod.Networks

/-- Positional interface names: `fmt.Sprintf("eth%d", i)`. -/
def ethName (i : Nat) : String :=
  "eth" ++ Nat.repr i

/-- The loop of `forEachNetwork`: look each name up, hand the network,
its positional interface name and the pod to the callback, abort on the
first lookup or callback error, and concatenate the recorded steps. -/
def forEachGo {σ : Type} (plugin : PluginState) (pod : PodNetwork)
    (f : σ → cniNetwork → String → PodNetwork → σ × List Op × Option OpError) :
    List String → Nat → σ → σ × List Op × Option OpError
  | [], _, s => (s, [], none)
  | n :: ns, i, s =>
    match getNetwork plugin n with
    | Except.error e => (s, [], some e)
    | Except.ok net =>
      match f s net (ethName i) pod with
      | (s', ops, some e) => (s', ops, some e)
      | (s', ops, none) =>
        match forEachGo plugin pod f ns (i + 1) s' with
        | (s'', ops', r) => (s'', ops ++ ops', r)

def forEachNetwork {σ : Type} (plugin : PluginState) (pod : PodNetwork)
    (f : σ → cniNetwork → String → PodNetwork → σ × List Op × Option OpError)
    (init : σ) : σ × List Op × Option OpError :=
  forEachGo plugin pod f (resolveNames plugin pod) 0 init

/-- `buildCNIRuntimeConf`: container id, namespace path, interface name,
the fixed identifying arguments, and the port-mapping capability payload
when the request carries port mappings. -/
def buildCNIRuntimeConf (pod : PodNetwork) (ifName : String) : RuntimeConf :=
  { ContainerID := pod.ID
    NetNS := pod.NetNS
    IfName := ifName
    Args := [("IgnoreUnknown", "1"), ("K8S_POD_NAMESPACE", pod.Namespace),
             ("K8S_POD_NAME", pod.Name), ("K8S_POD_INFRA_CONTAINER_ID", pod.ID)]
    CapabilityPortMappings :=
      if pod.PortMappings = [] then none else some pod.PortMappings }

/-- `cniNetwork.addToNetwork`: build the runtime conf and call
`AddNetworkList`; the invocation is recorded in the trace. -/
def addToNetwork (E : Engine) (net : cniNetwork) (pod : PodNetwork) (ifName : String) :
    Except OpError CNIResult × List Op :=
  match E.add net.NetworkConfig net.path (buildCNIRuntimeConf pod ifName) with
  | Except.error msg => (Except.error (OpError.engine msg), [Op.add net ifName])
  | Except.ok r => (Except.ok r, [Op.add net ifName])

/-- `cniNetwork.deleteFromNetwork`: build the runtime conf and call
`DelNetworkList`; the invocation is recorded in the trace. -/
def deleteFromNetwork (E : Engine) (net : cniNetwork) (pod : PodNetwork) (ifName : String) :
    Option OpError × List Op :=
  match E.del net.NetworkConfig net.path (buildCNIRuntimeConf pod ifName) with
  | some msg => (some (OpError.engine msg), [Op.del net ifName])
  | none => (none, [Op.del net ifName])

/-- The closure `SetUpPod` hands to `forEachNetwork`: attach and append
the result. -/
def setupCallback (E : Engine) (acc : List CNIResult) (net : cniNetwork)
    (ifName : String) (pod : PodNetwork) :
    List CNIResult × List Op × Option OpError :=
  match addToNetwork E net pod ifName with
  | (Except.error e, ops) => (acc, ops, some e)
  | (Except.ok r, ops) => (acc ++ [r], ops, none)

/-- The closure `TearDownPod` hands to `forEachNetwork`: detach. -/
def teardownCallback (E : Engine) (_u : Unit) (net : cniNetwork)
    (ifName : String) (pod : PodNetwork) :
    Unit × List Op × Option OpError :=
  match deleteFromNetwork E net pod ifName with
  | (some e, ops) => ((), ops, some e)
  | (none, ops) => ((), ops, none)

/-- The `cnicurrent.Result` synthesized by `GetPodNetworkStatus` for one
interface. -/
def mkStatusResult (ifName : String) (im : IPMac) (sandbox : String) : StatusResult :=
  { ifName := ifName, mac := im.mac, sandbox := sandbox, ip := im.ip }

/-- The closure `GetPodNetworkStatus` hands to `forEachNetwork`: query
the namespace inspector for the interface and synthesize a result. -/
def statusCallback (E : Engine) (acc : List StatusResult) (_net : cniNetwork)
    (ifName : String) (pod : PodNetwork) :
    List StatusResult × List Op × Option OpError :=
  match E.inspect pod.NetNS ifName with
  | Except.error msg => (acc, [Op.inspect pod.NetNS ifName], some (OpError.inspection msg))
  | Except.ok im =>
    (acc ++ [mkStatusResult ifName im pod.NetNS], [Op.inspect pod.NetNS ifName], none)

/-- `SetUpPod`: initialization check, pod lock, loopback attach on
interface "lo", then each resolved network in order on "eth{i}"; the
collected results cover the requested networks only. -/
def SetUpPod (E : Engine) (plugin : PluginState) (pod : PodNetwork) :
    Except OpError (List CNIResult) × List Op :=
  match checkInitialized plugin pod with
  | some e => (Except.error e, [])
  | none =>
    let key := buildFullPodName pod
    match addToNetwork E plugin.loNetwork pod "lo" with
    | (Except.error e, loOps) => (Except.error e, Op.lock key :: loOps ++ [Op.unlock key])
    | (Except.ok _, loOps) =>
      match forEachNetwork plugin pod (setupCallback E) [] with
      | (results, ops, none) =>
        (Except.ok results, Op.lock key :: (loOps ++ ops) ++ [Op.unlock key])
      | (_, ops, some e) =>
        (Except.error e, Op.lock key :: (loOps ++ ops) ++ [Op.unlock key])

/-- `TearDownPod`: initialization check, pod lock, then detach each
resolved network in order on "eth{i}"; loopback is never touched. -/
def TearDownPod (E : Engine) (plugin : PluginState) (pod : PodNetwork) :
    Option OpError × List Op :=
  match checkInitialized plugin pod with
  | some e => (some e, [])
  | none =>
    let key := buildFullPodName pod
    match forEachNetwork plugin pod (teardownCallback E) () with
    | (_, ops, r) => (r, Op.lock key :: ops ++ [Op.unlock key])

/-- `GetPodNetworkStatus`: pod lock, then inspect each resolved
network's positional interface and synthesize the results. -/
def GetPodNetworkStatus (E : Engine) (plugin : PluginState) (pod : PodNetwork) :
    Except OpError (List StatusResult) × List Op :=
  let key := buildFullPodName pod
  match forEachNetwork plugin pod (statusCallback E) [] with
  | (results, ops, none) => (Except.ok results, Op.lock key :: ops ++ [Op.unlock key])
  | (_, ops, some e) => (Except.error e, Op.lock key :: ops ++ [Op.unlock key])

/-- The zero-value pod descriptor `PodNetwork{}`. -/
def emptyPodNetwork : PodNetwork :=
  { Name := "", Namespace := "", ID := "", NetNS := "", Networks := [], PortMappings := [] }

/-- The no-argument `Status` entry point:
`checkInitialized(PodNetwork{})`. -/
def Status (plugin : PluginState) : Option OpError :=
  checkInitialized plugin emptyPodNetwork

/-! ## Loop characterizations (helpers for the theorems) -/

/-- The interface name an engine/inspector step uses (lock steps have
none and report the empty string). -/
def opIfName : Op → String
  | Op.lock _ => ""
  | Op.unlock _ => ""
  | Op.add _ ifn => ifn
  | Op.del _ ifn => ifn
  | Op.inspect _ ifn => ifn

/-- The engine/inspector invocations of a trace (lock bookkeeping
dropped). -/
def engineOps (ops : List Op) : List Op :=
  ops.filter (fun op =>
    match op with
    | Op.lock _ => false
    | Op.unlock _ => false
    | _ => true)

/-- The per-step error the `SetUpPod` callback reports for a network and
interface name. -/
def addErrF (E : Engine) (pod : PodNetwork) (net : cniNetwork) (ifn : String) :
    Option OpError :=
  match E.add net.NetworkConfig net.path (buildCNIRuntimeConf pod ifn) with
  | Except.error msg => some (OpError.engine msg)
  | Except.ok _ => none

/-- The per-step error the `TearDownPod` callback reports. -/
def delErrF (E : Engine) (pod : PodNetwork) (net : cniNetwork) (ifn : String) :
    Option OpError :=
  match E.del net.NetworkConfig net.path (buildCNIRuntimeConf pod ifn) with
  | some msg => some (OpError.engine msg)
  | none => none

/-- The per-step error the `GetPodNetworkStatus` callback reports. -/
def inspErrF (E : Engine) (pod : PodNetwork) (_net : cniNetwork) (ifn : String) :
    Option OpError :=
  match E.inspect pod.NetNS ifn with
  | Except.error msg => some (OpError.inspection msg)
  | Except.ok _ => none

/-- Trace and error of the `forEachNetwork` loop, for a callback that on
network `net` and interface `ifn` records the single step `mk net ifn`
and fails exactly when `errF net ifn` is `some`. -/
def goSpec (plugin : PluginState) (mk : cniNetwork → String → Op)
    (errF : cniNetwork → String → Option OpError) :
    List String → Nat → List Op × Option OpError
  | [], _ => ([], none)
  | n :: ns, i =>
    match getNetwork plugin n with
    | Except.error e => ([], some e)
    | Except.ok net =>
      match errF net (ethName i) with
      | some e => ([mk net (ethName i)], some e)
      | none =>
        match goSpec plugin mk errF ns (i + 1) with
        | (ops, r) => (mk net (ethName i) :: ops, r)

/-- The full step list an error-free run of the loop performs: one step
per resolvable name, with positional interface names; cut short at the
first unresolvable name. -/
def plannedOps (plugin : PluginState) (mk : cniNetwork → String → Op) :
    List String → Nat → List Op
  | [], _ => []
  | n :: ns, i =>
    match getNetwork plugin n with
    | Except.error _ => []
    | Except.ok net => mk net (ethName i) :: plannedOps plugin mk ns (i + 1)

/-- Every name resolves and every per-step check passes. -/
def allStepsOk (plugin : PluginState) (errF : cniNetwork → String → Option OpError) :
    List String → Nat → Bool
  | [], _ => true
  | n :: ns, i =>
    match getNetwork plugin n with
    | Except.error _ => false
    | Except.ok net => (errF net (ethName i)).isNone && allStepsOk plugin errF ns (i + 1)

/-- Every name resolves against the registry. -/
def allFoundB (plugin : PluginState) (ns : List String) : Bool :=
  ns.all (fun n => (getNetwork plugin n).isOk)

/-- The first requested name absent from the registry, if any. -/
def firstMissing (plugin : PluginState) : List String → Option String
  | [] => none
  | n :: ns =>
    match getNetwork plugin n with
    | Except.error _ => some n
    | Except.ok _ => firstMissing plugin ns

/-- The ordered attach results of an error-free `SetUpPod` run over the
resolved names (meaningful under `allStepsOk` for `addErrF`). -/
def setupResults (E : Engine) (plugin : PluginState) (pod : PodNetwork) :
    List String → Nat → List CNIResult
  | [], _ => []
  | n :: ns, i =>
    match getNetwork plugin n with
    | Except.error _ => []
    | Except.ok net =>
      match E.add net.NetworkConfig net.path (buildCNIRuntimeConf pod (ethName i)) with
      | Except.error _ => []
      | Except.ok r => r :: setupResults E plugin pod ns (i + 1)

/-! ## Lemmas on association-list maps -/

theorem mapLookup_mapInsert_self {α : Type} (m : List (String × α)) (k : String) (v : α) :
    mapLookup (mapInsert m k v) k = some v := by
  induction m with
  | nil => simp [mapInsert, mapLookup]
  | cons p rest ih =>
    obtain ⟨k', v'⟩ := p
    by_cases h : k' = k
    · simp [mapInsert, h, mapLookup]
    · simp [mapInsert, h, mapLookup, ih]

theorem mapLookup_mapInsert_ne {α : Type} (m : List (String × α)) {k' k : String}
    (v : α) (h : k' ≠ k) :
    mapLookup (mapInsert m k' v) k = mapLookup m k := by
  induction m with
  | nil => simp [mapInsert, mapLookup, h]
  | cons p rest ih =>
    obtain ⟨k'', v''⟩ := p
    by_cases h2 : k'' = k'
    · subst h2
      simp [mapInsert, mapLookup, h, ih]
    · simp [mapInsert, h2, mapLookup, ih]

theorem mapLookup_mapDelete_self {α : Type} (m : List (String × α)) (k : String) :
    mapLookup (mapDelete m k) k = none := by
  induction m with
  | nil => simp [mapDelete, mapLookup]
  | cons p rest ih =>
    obtain ⟨k', v⟩ := p
    by_cases h : k' = k
    · simp [mapDelete, h, ih]
    · simp [mapDelete, h, mapLookup, ih]

theorem mapLookup_mapDelete_ne {α : Type} (m : List (String × α)) {k' k : String}
    (h : k' ≠ k) :
    mapLookup (mapDelete m k') k = mapLookup m k := by
  induction m with
  | nil => simp [mapDelete]
  | cons p rest ih =>
    obtain ⟨k'', v⟩ := p
    by_cases h2 : k'' = k'
    · subst h2
      simp [mapDelete, mapLookup, h, ih]
    · simp [mapDelete, h2, mapLookup, ih]

/-! ## Lemmas on the pod-lock table -/

theorem podLockAcquire_lookup_ne (pods : List (String × Nat)) {k key : String}
    (h : k ≠ key) :
    mapLookup (podLockAcquire pods k) key = mapLookup pods key := by
  unfold podLockAcquire
  cases mapLookup pods k with
  | none => simp [mapLookup_mapInsert_ne _ _ h]
  | some rc => simp [mapLookup_mapInsert_ne _ _ h]

theorem podLockRelease_lookup_ne (pods : List (String × Nat)) {k key : String}
    (h : k ≠ key) :
    mapLookup (podLockRelease pods k).1 key = mapLookup pods key := by
  unfold podLockRelease
  cases mapLookup pods k with
  | none => simp
  | some rc =>
    cases rc with
    | zero => simp [mapLookup_mapDelete_ne _ h]
    | succ rc' =>
      by_cases h0 : rc' = 0 <;>
        simp [h0, mapLookup_mapDelete_ne _ h, mapLookup_mapInsert_ne _ _ h]

theorem runPodOps_count (key : String) :
    ∀ (ops : List (Bool × String)) (pods : List (String × Nat)) (c c' : Nat),
      mapLookup pods key = (if c = 0 then none else some c) →
      runCount key c ops = some c' →
      mapLookup (runPodOps pods ops) key = (if c' = 0 then none else some c') := by
  intro ops
  induction ops with
  | nil =>
    intro pods c c' hl hc
    simp only [runCount] at hc
    cases hc
    simpa [runPodOps] using hl
  | cons op rest ih =>
    intro pods c c' hl hc
    obtain ⟨acq, k⟩ := op
    by_cases hk : k = key
    · subst hk
      cases acq
      · -- release
        simp only [runCount, if_pos rfl, Bool.false_eq_true, if_false] at hc
        cases c with
        | zero => cases hc
        | succ c0 =>
          simp only [if_neg (Nat.succ_ne_zero c0)] at hl
          have hrel : mapLookup (podLockRelease pods k).1 k =
              (if c0 = 0 then none else some c0) := by
            unfold podLockRelease
            rw [hl]
            by_cases h0 : c0 = 0
            · simp [h0, mapLookup_mapDelete_self]
            · simp [h0, mapLookup_mapInsert_self]
          simpa [runPodOps] using ih (podLockRelease pods k).1 c0 c' hrel hc
      · -- acquire
        simp only [runCount, if_pos rfl, if_true] at hc
        have hacq : mapLookup (podLockAcquire pods k) k =
            (if c + 1 = 0 then none else some (c + 1)) := by
          unfold podLockAcquire
          by_cases h0 : c = 0
          · subst h0
            simp only [if_pos rfl] at hl
            rw [hl]
            simp [mapLookup_mapInsert_self]
          · rw [if_neg h0] at hl
            rw [hl]
            simp [mapLookup_mapInsert_self, h0]
        simpa [runPodOps] using ih (podLockAcquire pods k) (c + 1) c' hacq hc
    · have hk' : k ≠ key := hk
      simp only [runCount, if_neg hk'] at hc
      cases acq
      · have hrel := podLockRelease_lookup_ne pods hk'
        have hl2 : mapLookup (podLockRelease pods k).1 key =
            (if c = 0 then none else some c) := by rw [hrel]; exact hl
        simpa [runPodOps] using ih (podLockRelease pods k).1 c c' hl2 hc
      · have hacq := podLockAcquire_lookup_ne pods hk'
        have hl2 : mapLookup (podLockAcquire pods k) key =
            (if c = 0 then none else some c) := by rw [hacq]; exact hl
        simpa [runPodOps] using ih (podLockAcquire pods k) c c' hl2 hc

/-- Claim C8: for every key, after any balanced sequence of
Acquire/Release operations on the pod-lock table the key is absent from
the table; an entry is created lazily with refcount 1 on first Acquire,
further Acquires increment it, and the Release that brings the refcount
to zero deletes the entry; Release of an unknown key logs a warning and
leaves the table unchanged; Release of a zero-refcount entry logs an
error and removes the entry. -/
theorem C8_podLockTable :
    (∀ (ops : List (Bool × String)) (pods : List (String × Nat)) (key : String),
        mapLookup pods key = none → runCount key 0 ops = some 0 →
        mapLookup (runPodOps pods ops) key = none) ∧
    (∀ (pods : List (String × Nat)) (key : String), mapLookup pods key = none →
        mapLookup (podLockAcquire pods key) key = some 1) ∧
    (∀ (pods : List (String × Nat)) (key : String) (c : Nat),
        mapLookup pods key = some c →
        mapLookup (podLockAcquire pods key) key = some (c + 1)) ∧
    (∀ (pods : List (String × Nat)) (key : String), mapLookup pods key = some 1 →
        mapLookup (podLockRelease pods key).1 key = none) ∧
    (∀ (pods : List (String × Nat)) (key : String), mapLookup pods key = none →
        podLockRelease pods key = (pods, UnlockLog.warnUnknown)) ∧
    (∀ (pods : List (String × Nat)) (key : String), mapLookup pods key = some 0 →
        podLockRelease pods key = (mapDelete pods key, UnlockLog.errZero)) := by
  refine ⟨?_, ?_, ?_, ?_, ?_, ?_⟩
  · intro ops pods key hl hc
    have h := runPodOps_count key ops pods 0 0 (by simpa using hl) hc
    simpa using h
  · intro pods key hl
    unfold podLockAcquire
    rw [hl]
    exact mapLookup_mapInsert_self pods key 1
  · intro pods key c hl
    unfold podLockAcquire
    rw [hl]
    exact mapLookup_mapInsert_self pods key (c + 1)
  · intro pods key hl
    unfold podLockRelease
    rw [hl]
    simp [mapLookup_mapDelete_self]
  · intro pods key hl
    unfold podLockRelease
    rw [hl]
  · intro pods key hl
    unfold podLockRelease
    rw [hl]

/-- Witness for C8 at a concrete balanced sequence over two keys. -/
theorem C8_podLockTable_witness :
    mapLookup (runPodOps []
      [(true, "default_a"), (true, "default_a"), (false, "default_a"),
       (true, "kube_b"), (false, "default_a"), (false, "kube_b")]) "default_a" = none :=
  C8_podLockTable.1
    [(true, "default_a"), (true, "default_a"), (false, "default_a"),
     (true, "kube_b"), (false, "default_a"), (false, "kube_b")]
    [] "default_a" (by decide) (by decide)

/-! ## Claim C1: loading a directory with a.conflist / b.conf / c.conflist -/

/-- The three files of the C1 scenario: a valid config list named
"net-a", a valid single-plugin config with no declared name, and a
malformed config list. -/
def c1files : List ConfFile :=
  [ { path := "/etc/cni/net.d/a.conflist"
      content := FileContent.confList { name := "net-a", plugins := [{ ptype := "bridge" }] } }
  , { path := "/etc/cni/net.d/b.conf"
      content := FileContent.conf { name := "", ptype := "bridge" } }
  , { path := "/etc/cni/net.d/c.conflist", content := FileContent.malformed } ]

def c1load : Except LoadError (List (String × cniNetwork) × String) :=
  loadNetworks ["/opt/cni/bin"] "" (Except.ok c1files)

/-- Claim C1 as stated is false: the name of a config with no declared
name is defaulted to `path.Base` of the source file, which keeps the
extension, so the load registers "b.conf" and no network named "b"
exists. -/
theorem C1_counterexample :
    ¬ ∃ p, c1load = Except.ok p ∧ (mapLookup p.1 "b").isSome = true := by
  rintro ⟨p, hp, hb⟩
  have h2 : c1load.map (fun q => (mapLookup q.1 "b").isSome) = Except.ok true := by
    rw [hp]
    simp [Except.map, hb]
  have h3 : c1load.map (fun q => (mapLookup q.1 "b").isSome) = Except.ok false := rfl
  rw [h2] at h3
  simp at h3

/-- Claim C1 (amended): loading the directory with `a.conflist` (valid,
name "net-a"), `b.conf` (valid, type "bridge", no declared name) and
`c.conflist` (malformed) succeeds and yields a registry containing
exactly the networks "net-a" and "b.conf" (the defaulted name is the
source file's base name, extension included), with default network
"net-a". -/
theorem C1_amended_theorem :
    c1load.map (fun p => (p.1.map Prod.fst, p.2)) =
      Except.ok (["net-a", "b.conf"], "net-a") := rfl

/-! ## Claim C7: the default network name is sticky across resyncs -/

theorem sync_default_of_ne (cniDirs : List String) (vendorPre : String)
    (dir : Except Unit (List ConfFile)) (st : PluginState)
    (h : st.defaultNetName ≠ "") :
    (syncNetworkConfig cniDirs vendorPre dir st).1.defaultNetName = st.defaultNetName := by
  unfold syncNetworkConfig
  cases hl : loadNetworks cniDirs vendorPre dir with
  | error e => rfl
  | ok p =>
    obtain ⟨n, d⟩ := p
    simp [h]

theorem resyncAll_default (cniDirs : List String) (vendorPre : String) :
    ∀ (dirs : List (Except Unit (List ConfFile))) (st : PluginState),
      st.defaultNetName ≠ "" →
      (resyncAll cniDirs vendorPre st dirs).defaultNetName = st.defaultNetName := by
  intro dirs
  induction dirs with
  | nil => intro st h; rfl
  | cons d ds ih =>
    intro st h
    have hstep := sync_default_of_ne cniDirs vendorPre d st h
    have hne : (syncNetworkConfig cniDirs vendorPre d st).1.defaultNetName ≠ "" := by
      rw [hstep]; exact h
    calc (resyncAll cniDirs vendorPre st (d :: ds)).defaultNetName
        = (resyncAll cniDirs vendorPre (syncNetworkConfig cniDirs vendorPre d st).1 ds).defaultNetName := rfl
      _ = (syncNetworkConfig cniDirs vendorPre d st).1.defaultNetName := ih _ hne
      _ = st.defaultNetName := hstep

/-- Claim C7: once the default network name is non-empty (supplied at
construction or discovered at the first successful load), every later
resync — and any sequence of resyncs — replaces the network map but
never changes the default name; the default name is only assigned when
it is currently empty. -/
theorem C7_default_sticky (cniDirs : List String) (vendorPre : String) (st : PluginState) :
    (st.defaultNetName ≠ "" →
      (∀ dir, (syncNetworkConfig cniDirs vendorPre dir st).1.defaultNetName
          = st.defaultNetName) ∧
      (∀ dir networks d, loadNetworks cniDirs vendorPre dir = Except.ok (networks, d) →
        (syncNetworkConfig cniDirs vendorPre dir st).1.networks = networks) ∧
      (∀ dirs, (resyncAll cniDirs vendorPre st dirs).defaultNetName = st.defaultNetName)) ∧
    (st.defaultNetName = "" →
      ∀ dir networks d, loadNetworks cniDirs vendorPre dir = Except.ok (networks, d) →
        (syncNetworkConfig cniDirs vendorPre dir st).1 =
          { st with defaultNetName := d, networks := networks }) := by
  constructor
  · intro h
    refine ⟨fun dir => sync_default_of_ne cniDirs vendorPre dir st h, ?_, ?_⟩
    · intro dir networks d hl
      unfold syncNetworkConfig
      rw [hl]
    · intro dirs
      exact resyncAll_default cniDirs vendorPre dirs st h
  · intro h dir networks d hl
    unfold syncNetworkConfig
    rw [hl]
    simp [h]

/-- Witness for C7: a state with default "net-a" keeps it across a
failed resync followed by a successful one that loads only "other". -/
theorem C7_default_sticky_witness :
    (resyncAll ["/opt/cni/bin"] ""
      { defaultNetName := "net-a", networks := [],
        loNetwork := getLoNetwork ["/opt/cni/bin"] "" }
      [Except.error (),
       Except.ok [{ path := "/etc/cni/net.d/other.conf"
                    content := FileContent.conf { name := "other", ptype := "bridge" } }]]
      ).defaultNetName = "net-a" :=
  ((C7_default_sticky ["/opt/cni/bin"] ""
      { defaultNetName := "net-a", networks := [],
        loNetwork := getLoNetwork ["/opt/cni/bin"] "" }).1 (by decide)).2.2 _

/-! ## Claim C6: load fails only when zero usable networks remain -/

/-- A file the per-file phase accepts, extension aside: it parses and
declares at least one plugin. -/
def coreUsable (f : ConfFile) : Bool :=
  match loadOneFile f with
  | some c => decide (c.plugins ≠ [])
  | none => false

theorem usableFile_eq (f : ConfFile) :
    usableFile f = (hasConfExt f.path && coreUsable f) := by
  unfold usableFile coreUsable
  rfl

theorem mapInsert_ne_nil {α : Type} (m : List (String × α)) (k : String) (v : α) :
    mapInsert m k v ≠ [] := by
  cases m with
  | nil => simp [mapInsert]
  | cons p rest =>
    obtain ⟨k', v'⟩ := p
    by_cases h : k' = k <;> simp [mapInsert, h]

theorem processFile_skip (cniDirs : List String) (vendorPre : String)
    (st : List (String × cniNetwork) × String) (f : ConfFile)
    (h : coreUsable f = false) :
    processFile cniDirs vendorPre st f = st := by
  unfold processFile
  unfold coreUsable at h
  cases hl : loadOneFile f with
  | none => rfl
  | some c =>
    rw [hl] at h
    simp only [decide_eq_false_iff_not, Decidable.not_not] at h
    simp [h]

theorem processFile_grow (cniDirs : List String) (vendorPre : String)
    (st : List (String × cniNetwork) × String) (f : ConfFile)
    (h : coreUsable f = true) :
    (processFile cniDirs vendorPre st f).1 ≠ [] := by
  unfold processFile
  unfold coreUsable at h
  cases hl : loadOneFile f with
  | none => rw [hl] at h; cases h
  | some c =>
    rw [hl] at h
    simp only [decide_eq_true_eq] at h
    simp only [if_neg h]
    exact mapInsert_ne_nil _ _ _

theorem processFile_preserve (cniDirs : List String) (vendorPre : String)
    (st : List (String × cniNetwork) × String) (f : ConfFile)
    (h : st.1 ≠ []) :
    (processFile cniDirs vendorPre st f).1 ≠ [] := by
  cases hu : coreUsable f with
  | false => rw [processFile_skip cniDirs vendorPre st f hu]; exact h
  | true => exact processFile_grow cniDirs vendorPre st f hu

theorem processFiles_preserve (cniDirs : List String) (vendorPre : String) :
    ∀ (l : List ConfFile) (st : List (String × cniNetwork) × String),
      st.1 ≠ [] → (processFiles cniDirs vendorPre l st).1 ≠ [] := by
  intro l
  induction l with
  | nil => intro st h; exact h
  | cons f fs ih =>
    intro st h
    exact ih _ (processFile_preserve cniDirs vendorPre st f h)

theorem processFiles_ne_nil_of_mem (cniDirs : List String) (vendorPre : String) :
    ∀ (l : List ConfFile) (st : List (String × cniNetwork) × String) (f : ConfFile),
      f ∈ l → coreUsable f = true → (processFiles cniDirs vendorPre l st).1 ≠ [] := by
  intro l
  induction l with
  | nil => intro st f hf; cases hf
  | cons g gs ih =>
    intro st f hf hu
    rcases List.mem_cons.mp hf with h | h
    · subst h
      exact processFiles_preserve cniDirs vendorPre gs _
        (processFile_grow cniDirs vendorPre st f hu)
    · exact ih _ f h hu

theorem processFiles_skip_all (cniDirs : List String) (vendorPre : String) :
    ∀ (l : List ConfFile) (st : List (String × cniNetwork) × String),
      (∀ f ∈ l, coreUsable f = false) → processFiles cniDirs vendorPre l st = st := by
  intro l
  induction l with
  | nil => intro st _; rfl
  | cons g gs ih =>
    intro st h
    have hg : coreUsable g = false := h g (List.mem_cons_self g gs)
    calc processFiles cniDirs vendorPre (g :: gs) st
        = processFiles cniDirs vendorPre gs (processFile cniDirs vendorPre st g) := rfl
      _ = processFiles cniDirs vendorPre gs st := by
            rw [processFile_skip cniDirs vendorPre st g hg]
      _ = st := ih st (fun f hf => h f (List.mem_cons_of_mem g hf))

theorem mem_insertSorted (f a : ConfFile) :
    ∀ l : List ConfFile, a ∈ insertSorted f l ↔ a = f ∨ a ∈ l := by
  intro l
  induction l with
  | nil => simp [insertSorted]
  | cons g gs ih =>
    by_cases h : strLt g.path f.path
    · simp only [insertSorted, if_pos h, List.mem_cons, ih]
      try tauto
    · simp only [insertSorted, if_neg h, List.mem_cons]
      try tauto

theorem mem_sortFiles (a : ConfFile) :
    ∀ l : List ConfFile, a ∈ sortFiles l ↔ a ∈ l := by
  intro l
  induction l with
  | nil => simp [sortFiles]
  | cons f fs ih =>
    simp only [sortFiles, mem_insertSorted, List.mem_cons, ih]
    try tauto

theorem loadNetworks_isOk_iff (cniDirs : List String) (vendorPre : String)
    (fs : List ConfFile) :
    (loadNetworks cniDirs vendorPre (Except.ok fs)).isOk = true ↔
      ∃ f ∈ fs, usableFile f = true := by
  unfold loadNetworks confFiles
  simp only [Except.map]
  by_cases hempty : fs.filter (fun f => hasConfExt f.path) = []
  · rw [if_pos hempty]
    simp only [Except.isOk, Except.toBool]
    constructor
    · intro h; cases h
    · rintro ⟨f, hf, hu⟩
      rw [usableFile_eq, Bool.and_eq_true] at hu
      have : f ∈ fs.filter (fun f => hasConfExt f.path) :=
        List.mem_filter.mpr ⟨hf, hu.1⟩
      rw [hempty] at this
      cases this
  · rw [if_neg hempty]
    set st := processFiles cniDirs vendorPre
      (sortFiles (fs.filter (fun f => hasConfExt f.path))) ([], "") with hst
    by_cases hnil : st.1 = []
    · rw [if_pos hnil]
      simp only [Except.isOk, Except.toBool]
      constructor
      · intro h; cases h
      · rintro ⟨f, hf, hu⟩
        rw [usableFile_eq, Bool.and_eq_true] at hu
        have hmem : f ∈ fs.filter (fun f => hasConfExt f.path) :=
          List.mem_filter.mpr ⟨hf, hu.1⟩
        have hmem2 : f ∈ sortFiles (fs.filter (fun f => hasConfExt f.path)) :=
          (mem_sortFiles f _).mpr hmem
        exact absurd hnil
          (processFiles_ne_nil_of_mem cniDirs vendorPre _ ([], "") f hmem2 hu.2)
    · rw [if_neg hnil]
      simp only [Except.isOk, Except.toBool, true_iff]
      by_contra hno
      push_neg at hno
      have hall : ∀ f ∈ sortFiles (fs.filter (fun f => hasConfExt f.path)),
          coreUsable f = false := by
        intro f hf
        have hmem : f ∈ fs.filter (fun f => hasConfExt f.path) :=
          (mem_sortFiles f _).mp hf
        have hin : f ∈ fs := (List.mem_filter.mp hmem).1
        have hext : hasConfExt f.path = true := (List.mem_filter.mp hmem).2
        have := hno f hin
        rw [usableFile_eq, hext] at this
        simpa using this
      have := processFiles_skip_all cniDirs vendorPre _ ([], "") hall
      rw [← hst] at this
      rw [this] at hnil
      exact hnil rfl

/-- Claim C6: the load fails if and only if the directory yields zero
usable networks — the directory is unreadable, or no file has a
recognized extension or survives the per-file checks; and one usable
file is enough for the load to succeed no matter how many other files
are rejected (rejected files are skipped, not fatal). -/
theorem C6_load_error_iff (cniDirs : List String) (vendorPre : String) :
    (loadNetworks cniDirs vendorPre (Except.error ()) = Except.error LoadError.confFilesErr) ∧
    (∀ fs : List ConfFile,
      ((loadNetworks cniDirs vendorPre (Except.ok fs)).isOk = false ↔
        ∀ f ∈ fs, usableFile f = false)) ∧
    (∀ (fs : List ConfFile) (f : ConfFile), f ∈ fs → usableFile f = true →
      (loadNetworks cniDirs vendorPre (Except.ok fs)).isOk = true) := by
  refine ⟨rfl, ?_, ?_⟩
  · intro fs
    constructor
    · intro h f hf
      cases husable : usableFile f with
      | false => rfl
      | true =>
        have hok := (loadNetworks_isOk_iff cniDirs vendorPre fs).mpr ⟨f, hf, husable⟩
        rw [h] at hok
        cases hok
    · intro h
      cases hok : (loadNetworks cniDirs vendorPre (Except.ok fs)).isOk with
      | false => rfl
      | true =>
        obtain ⟨f, hf, hu⟩ := (loadNetworks_isOk_iff cniDirs vendorPre fs).mp hok
        have hfalse := h f hf
        rw [hu] at hfalse
        cases hfalse
  · intro fs f hf hu
    exact (loadNetworks_isOk_iff cniDirs vendorPre fs).mpr ⟨f, hf, hu⟩

/-- Witness for C6: one usable file among a malformed file and a
zero-plugin file makes the load succeed. -/
theorem C6_load_error_iff_witness :
    (loadNetworks ["/opt/cni/bin"] "" (Except.ok
      [{ path := "/etc/cni/net.d/x.conf", content := FileContent.malformed },
       { path := "/etc/cni/net.d/y.conflist",
         content := FileContent.confList { name := "empty", plugins := [] } },
       { path := "/etc/cni/net.d/z.conf",
         content := FileContent.conf { name := "z", ptype := "bridge" } }])).isOk = true :=
  (C6_load_error_iff ["/opt/cni/bin"] "").2.2 _
    { path := "/etc/cni/net.d/z.conf",
      content := FileContent.conf { name := "z", ptype := "bridge" } }
    (by decide) (by decide)

/-! ## Claims C9 and C10: Status and the initialization check -/

def c9net : cniNetwork :=
  { name := "y", NetworkConfig := { name := "y", plugins := [{ ptype := "bridge" }] },
    path := ["/opt/cni/bin"] }

/-- A state whose registry resolves network "y" while the default name
"x" resolves nothing (reachable: construct with default name "x", then
load a directory declaring only "y"). -/
def c9state : PluginState :=
  { defaultNetName := "x", networks := [("y", c9net)],
    loNetwork := getLoNetwork ["/opt/cni/bin"] "" }

/-- Claim C9 as stated is false: in `c9state` some network ("y") is
resolvable, yet the no-argument `Status` still returns the
NotInitialized error, because only the default network is consulted. -/
theorem C9_counterexample :
    (getNetwork c9state "y").isOk = true ∧ Status c9state = some OpError.uninitialized :=
  ⟨rfl, rfl⟩

/-- Claim C9 (amended): the no-argument `Status()` returns the
NotInitialized error unless the default network is resolvable (a
non-empty default name present in the registry), and success
otherwise. -/
theorem C9_amended_theorem (plugin : PluginState) :
    Status plugin =
      (if (getDefaultNetwork plugin).isSome then none else some OpError.uninitialized) := by
  unfold Status checkInitialized emptyPodNetwork
  cases h : getDefaultNetwork plugin <;> simp [h]

/-- An engine whose attach/detach/inspect calls all succeed. -/
def okEngine : Engine :=
  { add := fun _ _ _ => Except.ok { raw := 7 }
    del := fun _ _ _ => none
    inspect := fun _ _ => Except.ok { ip := "10.1.2.3/24", mac := "0a:58:0a:01:02:03" } }

/-- Claim C10: `TearDownPod` performs the NotInitialized check as well:
with an empty explicit network list and no resolvable default network it
fails with the NotInitialized error, and its trace is empty — the pod
lock is never taken and no detach is attempted. -/
theorem C10_teardown_uninitialized (E : Engine) (plugin : PluginState) (pod : PodNetwork)
    (hnet : pod.Networks = []) (hdef : getDefaultNetwork plugin = none) :
    TearDownPod E plugin pod = (some OpError.uninitialized, []) := by
  unfold TearDownPod checkInitialized
  rw [hnet, hdef]
  rfl

/-- Witness for C10 at a concrete empty state and empty request. -/
theorem C10_teardown_uninitialized_witness :
    TearDownPod okEngine
      { defaultNetName := "", networks := [], loNetwork := getLoNetwork [] "" }
      emptyPodNetwork = (some OpError.uninitialized, []) :=
  C10_teardown_uninitialized okEngine
    { defaultNetName := "", networks := [], loNetwork := getLoNetwork [] "" }
    emptyPodNetwork rfl rfl

/-! ## Lemmas on the `forEachNetwork` loop -/

theorem setupCallback_ops (E : Engine) (pod : PodNetwork)
    (s : List CNIResult) (net : cniNetwork) (ifn : String) :
    (setupCallback E s net ifn pod).2.1 = [Op.add net ifn] := by
  unfold setupCallback addToNetwork
  cases E.add net.NetworkConfig net.path (buildCNIRuntimeConf pod ifn) <;> rfl

theorem setupCallback_err (E : Engine) (pod : PodNetwork)
    (s : List CNIResult) (net : cniNetwork) (ifn : String) :
    (setupCallback E s net ifn pod).2.2 = addErrF E pod net ifn := by
  unfold setupCallback addToNetwork addErrF
  cases E.add net.NetworkConfig net.path (buildCNIRuntimeConf pod ifn) <;> rfl

theorem teardownCallback_ops (E : Engine) (pod : PodNetwork)
    (s : Unit) (net : cniNetwork) (ifn : String) :
    (teardownCallback E s net ifn pod).2.1 = [Op.del net ifn] := by
  unfold teardownCallback deleteFromNetwork
  cases E.del net.NetworkConfig net.path (buildCNIRuntimeConf pod ifn) <;> rfl

theorem teardownCallback_err (E : Engine) (pod : PodNetwork)
    (s : Unit) (net : cniNetwork) (ifn : String) :
    (teardownCallback E s net ifn pod).2.2 = delErrF E pod net ifn := by
  unfold teardownCallback deleteFromNetwork delErrF
  cases E.del net.NetworkConfig net.path (buildCNIRuntimeConf pod ifn) <;> rfl

theorem statusCallback_ops (E : Engine) (pod : PodNetwork)
    (s : List StatusResult) (net : cniNetwork) (ifn : String) :
    (statusCallback E s net ifn pod).2.1 = [Op.inspect pod.NetNS ifn] := by
  unfold statusCallback
  cases E.inspect pod.NetNS ifn <;> rfl

theorem statusCallback_err (E : Engine) (pod : PodNetwork)
    (s : List StatusResult) (net : cniNetwork) (ifn : String) :
    (statusCallback E s net ifn pod).2.2 = inspErrF E pod net ifn := by
  unfold statusCallback inspErrF
  cases E.inspect pod.NetNS ifn <;> rfl

theorem forEachGo_snd {σ : Type} (plugin : PluginState) (pod : PodNetwork)
    (f : σ → cniNetwork → String → PodNetwork → σ × List Op × Option OpError)
    (mk : cniNetwork → String → Op) (errF : cniNetwork → String → Option OpError)
    (hOps : ∀ s net ifn, (f s net ifn pod).2.1 = [mk net ifn])
    (hErr : ∀ s net ifn, (f s net ifn pod).2.2 = errF net ifn) :
    ∀ (ns : List String) (i : Nat) (s : σ),
      (forEachGo plugin pod f ns i s).2 = goSpec plugin mk errF ns i := by
  intro ns
  induction ns with
  | nil => intro i s; rfl
  | cons n ns ih =>
    intro i s
    simp only [forEachGo, goSpec]
    cases hg : getNetwork plugin n with
    | error e => rfl
    | ok net =>
      dsimp only
      rcases hfe : f s net (ethName i) pod with ⟨s', ops, r⟩
      have hops := hOps s net (ethName i)
      have herr := hErr s net (ethName i)
      rw [hfe] at hops herr
      simp only at hops herr
      subst hops
      subst herr
      cases he : errF net (ethName i) with
      | some e => simp [he]
      | none =>
        rcases hrec : forEachGo plugin pod f ns (i + 1) s' with ⟨s'', ops', r'⟩
        have hih := ih (i + 1) s'
        rw [hrec] at hih
        simp only at hih
        simp [he, hrec, ← hih]

theorem getNetwork_error_eq (plugin : PluginState) (n : String) (e : OpError)
    (h : getNetwork plugin n = Except.error e) : e = OpError.networkNotFound n := by
  unfold getNetwork at h
  cases hl : mapLookup plugin.networks n with
  | none =>
    rw [hl] at h
    injection h with h2
    exact h2.symm
  | some v =>
    rw [hl] at h
    simp at h

theorem goSpec_of_allOk (plugin : PluginState) (mk : cniNetwork → String → Op)
    (errF : cniNetwork → String → Option OpError) :
    ∀ (ns : List String) (i : Nat), allStepsOk plugin errF ns i = true →
      goSpec plugin mk errF ns i = (plannedOps plugin mk ns i, none) := by
  intro ns
  induction ns with
  | nil => intro i _; rfl
  | cons n ns ih =>
    intro i h
    cases hg : getNetwork plugin n with
    | error e => simp [allStepsOk, hg] at h
    | ok net =>
      simp only [allStepsOk, hg, Bool.and_eq_true] at h
      have he : errF net (ethName i) = none := Option.isNone_iff_eq_none.mp h.1
      simp [goSpec, plannedOps, hg, he, ih (i + 1) h.2]

theorem allStepsOk_of_goSpec_none (plugin : PluginState) (mk : cniNetwork → String → Op)
    (errF : cniNetwork → String → Option OpError) :
    ∀ (ns : List String) (i : Nat), (goSpec plugin mk errF ns i).2 = none →
      allStepsOk plugin errF ns i = true := by
  intro ns
  induction ns with
  | nil => intro i _; rfl
  | cons n ns ih =>
    intro i h
    cases hg : getNetwork plugin n with
    | error e => simp [goSpec, hg] at h
    | ok net =>
      cases he : errF net (ethName i) with
      | some e => simp [goSpec, hg, he] at h
      | none =>
        rcases hrec : goSpec plugin mk errF ns (i + 1) with ⟨ops', r'⟩
        simp only [goSpec, hg, he, hrec] at h
        simp only [allStepsOk, hg, he, Option.isNone_none, Bool.true_and]
        exact ih (i + 1) (by rw [hrec]; exact h)

theorem goSpec_of_errF_none (plugin : PluginState) (mk : cniNetwork → String → Op)
    (errF : cniNetwork → String → Option OpError)
    (hE : ∀ net ifn, errF net ifn = none) :
    ∀ (ns : List String) (i : Nat),
      goSpec plugin mk errF ns i =
        (plannedOps plugin mk ns i,
         (firstMissing plugin ns).map OpError.networkNotFound) := by
  intro ns
  induction ns with
  | nil => intro i; rfl
  | cons n ns ih =>
    intro i
    cases hg : getNetwork plugin n with
    | error e =>
      have he := getNetwork_error_eq plugin n e hg
      subst he
      simp [goSpec, plannedOps, firstMissing, hg]
    | ok net =>
      simp [goSpec, plannedOps, firstMissing, hg, hE net (ethName i), ih (i + 1)]

theorem goSpec_append_ok (plugin : PluginState) (mk : cniNetwork → String → Op)
    (errF : cniNetwork → String → Option OpError) :
    ∀ (pre rest : List String) (i : Nat) (ops : List Op),
      goSpec plugin mk errF pre i = (ops, none) →
      goSpec plugin mk errF (pre ++ rest) i =
        (ops ++ (goSpec plugin mk errF rest (i + pre.length)).1,
         (goSpec plugin mk errF rest (i + pre.length)).2) := by
  intro pre
  induction pre with
  | nil =>
    intro rest i ops h
    simp only [goSpec] at h
    injection h with h1 h2
    subst h1
    simp
  | cons n pre ih =>
    intro rest i ops h
    cases hg : getNetwork plugin n with
    | error e => simp [goSpec, hg] at h
    | ok net =>
      cases he : errF net (ethName i) with
      | some e => simp [goSpec, hg, he] at h
      | none =>
        rcases hpre : goSpec plugin mk errF pre (i + 1) with ⟨ops', r'⟩
        simp only [goSpec, hg, he, hpre] at h
        injection h with h1 h2
        subst h2
        have hih := ih rest (i + 1) ops' hpre
        have hidx : i + 1 + pre.length = i + (pre.length + 1) := by omega
        rw [hidx] at hih
        rcases hpr : goSpec plugin mk errF (pre ++ rest) (i + 1) with ⟨opsA, rA⟩
        rw [hpr] at hih
        injection hih with hA hB
        rw [List.cons_append]
        simp only [goSpec, hg, he, hpr]
        rw [hA, hB, ← h1]
        simp

theorem goSpec_ops_shape (plugin : PluginState) (mk : cniNetwork → String → Op)
    (errF : cniNetwork → String → Option OpError) :
    ∀ (ns : List String) (i : Nat) (op : Op),
      op ∈ (goSpec plugin mk errF ns i).1 → ∃ net j, op = mk net (ethName j) := by
  intro ns
  induction ns with
  | nil => intro i op h; cases h
  | cons n ns ih =>
    intro i op h
    cases hg : getNetwork plugin n with
    | error e => simp [goSpec, hg] at h
    | ok net =>
      cases he : errF net (ethName i) with
      | some e =>
        simp [goSpec, hg, he] at h
        exact ⟨net, i, h⟩
      | none =>
        rcases hrec : goSpec plugin mk errF ns (i + 1) with ⟨ops', r'⟩
        simp only [goSpec, hg, he, hrec, List.mem_cons] at h
        rcases h with h | h
        · exact ⟨net, i, h⟩
        · exact ih (i + 1) op (by rw [hrec]; exact h)

theorem plannedOps_map_ifName (plugin : PluginState) (mk : cniNetwork → String → Op)
    (hmk : ∀ net ifn, opIfName (mk net ifn) = ifn) :
    ∀ (ns : List String) (i : Nat), allFoundB plugin ns = true →
      (plannedOps plugin mk ns i).map opIfName =
        (List.range' i ns.length).map ethName := by
  intro ns
  induction ns with
  | nil => intro i _; rfl
  | cons n ns ih =>
    intro i h
    simp only [allFoundB, List.all_cons, Bool.and_eq_true] at h
    cases hg : getNetwork plugin n with
    | error e => rw [hg] at h; cases h.1
    | ok net =>
      have hall : allFoundB plugin ns = true := h.2
      simp only [plannedOps, hg, List.length_cons, List.map_cons, hmk,
        List.range'_succ i ns.length 1, ih (i + 1) hall]

theorem ethName_ne_lo (j : Nat) : ethName j ≠ "lo" := by
  intro h
  have h2 : (ethName j).data = "lo".data := by rw [h]
  rw [ethName] at h2
  rw [String.data_append] at h2
  have h3 := congrArg List.length h2
  rw [List.length_append] at h3
  have e1 : ("eth".data).length = 3 := rfl
  have e2 : ("lo".data).length = 2 := rfl
  rw [e1, e2] at h3
  omega

theorem setup_fst (E : Engine) (plugin : PluginState) (pod : PodNetwork) :
    ∀ (ns : List String) (i : Nat) (acc : List CNIResult),
      (forEachGo plugin pod (setupCallback E) ns i acc).2.2 = none →
      (forEachGo plugin pod (setupCallback E) ns i acc).1 =
        acc ++ setupResults E plugin pod ns i := by
  intro ns
  induction ns with
  | nil => intro i acc _; simp [forEachGo, setupResults]
  | cons n ns ih =>
    intro i acc h
    cases hg : getNetwork plugin n with
    | error e => simp [forEachGo, hg] at h
    | ok net =>
      cases hadd : E.add net.NetworkConfig net.path
          (buildCNIRuntimeConf pod (ethName i)) with
      | error msg =>
        have hcb : setupCallback E acc net (ethName i) pod
            = (acc, [Op.add net (ethName i)], some (OpError.engine msg)) := by
          unfold setupCallback addToNetwork
          rw [hadd]
        simp [forEachGo, hg, hcb] at h
      | ok r =>
        have hcb : setupCallback E acc net (ethName i) pod
            = (acc ++ [r], [Op.add net (ethName i)], none) := by
          unfold setupCallback addToNetwork
          rw [hadd]
        rcases hrec : forEachGo plugin pod (setupCallback E) ns (i + 1) (acc ++ [r])
          with ⟨s2, ops2, r2⟩
        have hexp : forEachGo plugin pod (setupCallback E) (n :: ns) i acc
            = (s2, Op.add net (ethName i) :: ops2, r2) := by
          simp [forEachGo, hg, hcb, hrec]
        rw [hexp] at h
        rw [hexp]
        simp only at h ⊢
        subst h
        have hih := ih (i + 1) (acc ++ [r]) (by rw [hrec])
        rw [hrec] at hih
        simp only at hih
        rw [hih]
        simp [setupResults, hg, hadd]

theorem setupResults_length (E : Engine) (plugin : PluginState) (pod : PodNetwork) :
    ∀ (ns : List String) (i : Nat),
      allStepsOk plugin (addErrF E pod) ns i = true →
      (setupResults E plugin pod ns i).length = ns.length := by
  intro ns
  induction ns with
  | nil => intro i _; rfl
  | cons n ns ih =>
    intro i h
    cases hg : getNetwork plugin n with
    | error e => simp [allStepsOk, hg] at h
    | ok net =>
      simp only [allStepsOk, hg, Bool.and_eq_true] at h
      have he : addErrF E pod net (ethName i) = none := Option.isNone_iff_eq_none.mp h.1
      unfold addErrF at he
      cases hadd : E.add net.NetworkConfig net.path
          (buildCNIRuntimeConf pod (ethName i)) with
      | error msg => rw [hadd] at he; cases he
      | ok r => simp [setupResults, hg, hadd, ih (i + 1) h.2]

theorem setup_forEach_snd (E : Engine) (plugin : PluginState) (pod : PodNetwork)
    (init : List CNIResult) :
    (forEachNetwork plugin pod (setupCallback E) init).2 =
      goSpec plugin Op.add (addErrF E pod) (resolveNames plugin pod) 0 :=
  forEachGo_snd plugin pod (setupCallback E) Op.add (addErrF E pod)
    (fun s net ifn => setupCallback_ops E pod s net ifn)
    (fun s net ifn => setupCallback_err E pod s net ifn)
    (resolveNames plugin pod) 0 init

theorem teardown_forEach_snd (E : Engine) (plugin : PluginState) (pod : PodNetwork)
    (init : Unit) :
    (forEachNetwork plugin pod (teardownCallback E) init).2 =
      goSpec plugin Op.del (delErrF E pod) (resolveNames plugin pod) 0 :=
  forEachGo_snd plugin pod (teardownCallback E) Op.del (delErrF E pod)
    (fun s net ifn => teardownCallback_ops E pod s net ifn)
    (fun s net ifn => teardownCallback_err E pod s net ifn)
    (resolveNames plugin pod) 0 init

theorem status_forEach_snd (E : Engine) (plugin : PluginState) (pod : PodNetwork)
    (init : List StatusResult) :
    (forEachNetwork plugin pod (statusCallback E) init).2 =
      goSpec plugin (fun _ ifn => Op.inspect pod.NetNS ifn) (inspErrF E pod)
        (resolveNames plugin pod) 0 :=
  forEachGo_snd plugin pod (statusCallback E) (fun _ ifn => Op.inspect pod.NetNS ifn)
    (inspErrF E pod)
    (fun s net ifn => statusCallback_ops E pod s net ifn)
    (fun s net ifn => statusCallback_err E pod s net ifn)
    (resolveNames plugin pod) 0 init

/-- Claim C2: `SetUpPod` attaches the loopback network first, on
interface "lo", before any requested network; a loopback failure aborts
the call with that error and no requested network is touched; on success
the returned list holds the ordered per-network results of the requested
networks only — the loopback result is excluded, so the list is exactly
as long as the resolved request list. -/
theorem C2_setup_loopback (E : Engine) (plugin : PluginState) (pod : PodNetwork) :
    (checkInitialized plugin pod = none →
      ∃ rest, (SetUpPod E plugin pod).2 =
        Op.lock (buildFullPodName pod) :: Op.add plugin.loNetwork "lo" :: rest) ∧
    (∀ msg, checkInitialized plugin pod = none →
      E.add plugin.loNetwork.NetworkConfig plugin.loNetwork.path
          (buildCNIRuntimeConf pod "lo") = Except.error msg →
      SetUpPod E plugin pod =
        (Except.error (OpError.engine msg),
         [Op.lock (buildFullPodName pod), Op.add plugin.loNetwork "lo",
          Op.unlock (buildFullPodName pod)])) ∧
    (∀ rs, (SetUpPod E plugin pod).1 = Except.ok rs →
      rs = setupResults E plugin pod (resolveNames plugin pod) 0 ∧
      rs.length = (resolveNames plugin pod).length) := by
  refine ⟨?_, ?_, ?_⟩
  · intro hinit
    cases hadd : E.add plugin.loNetwork.NetworkConfig plugin.loNetwork.path
        (buildCNIRuntimeConf pod "lo") with
    | error msg =>
      have hcb : addToNetwork E plugin.loNetwork pod "lo"
          = (Except.error (OpError.engine msg), [Op.add plugin.loNetwork "lo"]) := by
        unfold addToNetwork; rw [hadd]
      exact ⟨[Op.unlock (buildFullPodName pod)], by simp [SetUpPod, hinit, hcb]⟩
    | ok r =>
      have hcb : addToNetwork E plugin.loNetwork pod "lo"
          = (Except.ok r, [Op.add plugin.loNetwork "lo"]) := by
        unfold addToNetwork; rw [hadd]
      rcases hfe : forEachNetwork plugin pod (setupCallback E) [] with ⟨results, ops, rr⟩
      cases rr with
      | none =>
        exact ⟨ops ++ [Op.unlock (buildFullPodName pod)],
          by simp [SetUpPod, hinit, hcb, hfe]⟩
      | some e =>
        exact ⟨ops ++ [Op.unlock (buildFullPodName pod)],
          by simp [SetUpPod, hinit, hcb, hfe]⟩
  · intro msg hinit hadd
    have hcb : addToNetwork E plugin.loNetwork pod "lo"
        = (Except.error (OpError.engine msg), [Op.add plugin.loNetwork "lo"]) := by
      unfold addToNetwork; rw [hadd]
    simp [SetUpPod, hinit, hcb]
  · intro rs h
    cases hinit : checkInitialized plugin pod with
    | some e => simp [SetUpPod, hinit] at h
    | none =>
      cases hadd : E.add plugin.loNetwork.NetworkConfig plugin.loNetwork.path
          (buildCNIRuntimeConf pod "lo") with
      | error msg =>
        have hcb : addToNetwork E plugin.loNetwork pod "lo"
            = (Except.error (OpError.engine msg), [Op.add plugin.loNetwork "lo"]) := by
          unfold addToNetwork; rw [hadd]
        simp [SetUpPod, hinit, hcb] at h
      | ok r =>
        have hcb : addToNetwork E plugin.loNetwork pod "lo"
            = (Except.ok r, [Op.add plugin.loNetwork "lo"]) := by
          unfold addToNetwork; rw [hadd]
        rcases hfe : forEachNetwork plugin pod (setupCallback E) []
          with ⟨results, ops, rr⟩
        cases rr with
        | some e => simp [SetUpPod, hinit, hcb, hfe] at h
        | none =>
          have hrs : results = rs := by
            simpa [SetUpPod, hinit, hcb, hfe] using h
          subst hrs
          have hfe2 : forEachGo plugin pod (setupCallback E)
              (resolveNames plugin pod) 0 [] = (results, ops, none) := hfe
          constructor
          · have h2 := setup_fst E plugin pod (resolveNames plugin pod) 0 []
              (by rw [hfe2])
            rw [hfe2] at h2
            simpa using h2
          · have hsnd := setup_forEach_snd E plugin pod []
            rw [hfe] at hsnd
            have hnone : (goSpec plugin Op.add (addErrF E pod)
                (resolveNames plugin pod) 0).2 = none := by
              rw [← hsnd]
            have hok := allStepsOk_of_goSpec_none plugin Op.add (addErrF E pod)
              (resolveNames plugin pod) 0 hnone
            have h2 := setup_fst E plugin pod (resolveNames plugin pod) 0 []
              (by rw [hfe2])
            rw [hfe2] at h2
            simp only at h2
            rw [h2]
            simpa using setupResults_length E plugin pod (resolveNames plugin pod) 0 hok

def netA : cniNetwork :=
  { name := "net-a", NetworkConfig := { name := "net-a", plugins := [{ ptype := "bridge" }] },
    path := ["/opt/cni/bin"] }

def netB : cniNetwork :=
  { name := "net-b", NetworkConfig := { name := "net-b", plugins := [{ ptype := "macvlan" }] },
    path := ["/opt/cni/bin"] }

/-- A registry holding "net-a" and "net-b" with default "net-a". -/
def p0 : PluginState :=
  { defaultNetName := "net-a", networks := [("net-a", netA), ("net-b", netB)],
    loNetwork := getLoNetwork ["/opt/cni/bin"] "" }

/-- A pod request with no explicit network list. -/
def pod0 : PodNetwork :=
  { Name := "pod", Namespace := "ns", ID := "cid", NetNS := "/proc/4711/ns/net",
    Networks := [], PortMappings := [] }

/-- A pod request with the explicit list ["net-a", "net-b"]. -/
def pod1 : PodNetwork :=
  { Name := "pod", Namespace := "ns", ID := "cid", NetNS := "/proc/4711/ns/net",
    Networks := ["net-a", "net-b"], PortMappings := [] }

/-- Witness for C2: on a default-network request against `p0` the trace
starts with the pod lock and the loopback attach on "lo". -/
theorem C2_setup_loopback_witness :
    ∃ rest, (SetUpPod okEngine p0 pod0).2 =
      Op.lock (buildFullPodName pod0) :: Op.add p0.loNetwork "lo" :: rest :=
  (C2_setup_loopback okEngine p0 pod0).1 rfl

/-- Claim C4: in a multi-network `SetUpPod` the first attach failure
aborts the call: networks attached earlier in the same call stay
attached (the trace never contains a detach — no rollback), the networks
after the failing one are never touched, and the returned value is just
the first error, carrying no result list. -/
theorem C4_setup_first_failure (E : Engine) (plugin : PluginState) (pod : PodNetwork) :
    (∀ net ifn, Op.del net ifn ∉ (SetUpPod E plugin pod).2) ∧
    (∀ pre bad post badNet msg r0,
      checkInitialized plugin pod = none →
      resolveNames plugin pod = pre ++ bad :: post →
      E.add plugin.loNetwork.NetworkConfig plugin.loNetwork.path
          (buildCNIRuntimeConf pod "lo") = Except.ok r0 →
      allStepsOk plugin (addErrF E pod) pre 0 = true →
      getNetwork plugin bad = Except.ok badNet →
      E.add badNet.NetworkConfig badNet.path
          (buildCNIRuntimeConf pod (ethName pre.length)) = Except.error msg →
      SetUpPod E plugin pod =
        (Except.error (OpError.engine msg),
         Op.lock (buildFullPodName pod) ::
           (Op.add plugin.loNetwork "lo" ::
             (plannedOps plugin Op.add pre 0 ++ [Op.add badNet (ethName pre.length)]))
           ++ [Op.unlock (buildFullPodName pod)])) := by
  constructor
  · intro net ifn hmem
    cases hinit : checkInitialized plugin pod with
    | some e => simp [SetUpPod, hinit] at hmem
    | none =>
      cases hadd : E.add plugin.loNetwork.NetworkConfig plugin.loNetwork.path
          (buildCNIRuntimeConf pod "lo") with
      | error msg =>
        have hcb : addToNetwork E plugin.loNetwork pod "lo"
            = (Except.error (OpError.engine msg), [Op.add plugin.loNetwork "lo"]) := by
          unfold addToNetwork; rw [hadd]
        simp [SetUpPod, hinit, hcb] at hmem
      | ok r =>
        have hcb : addToNetwork E plugin.loNetwork pod "lo"
            = (Except.ok r, [Op.add plugin.loNetwork "lo"]) := by
          unfold addToNetwork; rw [hadd]
        rcases hfe : forEachNetwork plugin pod (setupCallback E) []
          with ⟨results, ops, rr⟩
        have hsnd := setup_forEach_snd E plugin pod []
        rw [hfe] at hsnd
        have hops : ops = (goSpec plugin Op.add (addErrF E pod)
            (resolveNames plugin pod) 0).1 := by
          rw [← hsnd]
        have hshape : ∀ op ∈ ops, ∃ net' j, op = Op.add net' (ethName j) := by
          intro op hop
          exact goSpec_ops_shape plugin Op.add (addErrF E pod)
            (resolveNames plugin pod) 0 op (hops ▸ hop)
        cases rr with
        | none =>
          simp [SetUpPod, hinit, hcb, hfe] at hmem
          rcases hshape _ hmem with ⟨net', j, hsh⟩
          exact Op.noConfusion hsh
        | some e =>
          simp [SetUpPod, hinit, hcb, hfe] at hmem
          rcases hshape _ hmem with ⟨net', j, hsh⟩
          exact Op.noConfusion hsh
  · intro pre bad post badNet msg r0 hinit hres hlo hpre hbad hbadadd
    have hcb : addToNetwork E plugin.loNetwork pod "lo"
        = (Except.ok r0, [Op.add plugin.loNetwork "lo"]) := by
      unfold addToNetwork; rw [hlo]
    have hpreSpec := goSpec_of_allOk plugin Op.add (addErrF E pod) pre 0 hpre
    have hbadErr : addErrF E pod badNet (ethName (0 + pre.length))
        = some (OpError.engine msg) := by
      unfold addErrF
      rw [Nat.zero_add, hbadadd]
    have hbadSpec : goSpec plugin Op.add (addErrF E pod) (bad :: post) (0 + pre.length)
        = ([Op.add badNet (ethName pre.length)], some (OpError.engine msg)) := by
      simp only [goSpec, hbad, hbadErr]
      rw [Nat.zero_add]
    have happ := goSpec_append_ok plugin Op.add (addErrF E pod) pre (bad :: post) 0
      (plannedOps plugin Op.add pre 0) hpreSpec
    rw [hbadSpec] at happ
    have hfull : goSpec plugin Op.add (addErrF E pod) (resolveNames plugin pod) 0
        = (plannedOps plugin Op.add pre 0 ++ [Op.add badNet (ethName pre.length)],
           some (OpError.engine msg)) := by
      rw [hres, happ]
    rcases hfe : forEachNetwork plugin pod (setupCallback E) []
      with ⟨results, ops, rr⟩
    have hsnd := setup_forEach_snd E plugin pod []
    rw [hfe, hfull] at hsnd
    injection hsnd with h1 h2
    subst h1
    subst h2
    simp [SetUpPod, hinit, hcb, hfe]

/-- An engine that fails to attach the config list named "net-b" and
succeeds everywhere else. -/
def failEngineB : Engine :=
  { add := fun nc _ _ =>
      if nc.name = "net-b" then Except.error "backend failure" else Except.ok { raw := 1 }
    del := fun _ _ _ => none
    inspect := fun _ _ => Except.ok { ip := "10.1.2.3/24", mac := "0a:58:0a:01:02:03" } }

/-- Witness for C4: with ["net-a", "net-b"] requested and the engine
failing on "net-b", the call returns exactly the first error and the
trace stops right after the failing attach. -/
theorem C4_setup_first_failure_witness :
    SetUpPod failEngineB p0 pod1 =
      (Except.error (OpError.engine "backend failure"),
       Op.lock (buildFullPodName pod1) ::
         (Op.add p0.loNetwork "lo" ::
           (plannedOps p0 Op.add ["net-a"] 0 ++ [Op.add netB (ethName 1)]))
         ++ [Op.unlock (buildFullPodName pod1)]) :=
  (C4_setup_first_failure failEngineB p0 pod1).2 ["net-a"] "net-b" [] netB
    "backend failure" { raw := 1 } rfl rfl rfl (by decide) rfl rfl

/-- Claim C5: `TearDownPod` resolves networks and assigns positional
interface names by the same rule as `SetUpPod` but never performs any
operation on the loopback network (no step uses interface "lo" and no
attach ever appears); it detaches each resolved network in list order,
and the first detach failure aborts the call and is returned. -/
theorem C5_teardown (E : Engine) (plugin : PluginState) (pod : PodNetwork) :
    (∀ op ∈ (TearDownPod E plugin pod).2,
        op = Op.lock (buildFullPodName pod) ∨ op = Op.unlock (buildFullPodName pod) ∨
        ∃ net j, op = Op.del net (ethName j)) ∧
    (∀ op ∈ (TearDownPod E plugin pod).2, opIfName op ≠ "lo") ∧
    (∀ net ifn, Op.add net ifn ∉ (TearDownPod E plugin pod).2) ∧
    (checkInitialized plugin pod = none →
      allStepsOk plugin (delErrF E pod) (resolveNames plugin pod) 0 = true →
      TearDownPod E plugin pod =
        (none, Op.lock (buildFullPodName pod) ::
          (plannedOps plugin Op.del (resolveNames plugin pod) 0 ++
            [Op.unlock (buildFullPodName pod)]))) ∧
    (∀ pre bad post badNet msg,
      checkInitialized plugin pod = none →
      resolveNames plugin pod = pre ++ bad :: post →
      allStepsOk plugin (delErrF E pod) pre 0 = true →
      getNetwork plugin bad = Except.ok badNet →
      E.del badNet.NetworkConfig badNet.path
          (buildCNIRuntimeConf pod (ethName pre.length)) = some msg →
      TearDownPod E plugin pod =
        (some (OpError.engine msg),
         Op.lock (buildFullPodName pod) ::
           ((plannedOps plugin Op.del pre 0 ++ [Op.del badNet (ethName pre.length)])
            ++ [Op.unlock (buildFullPodName pod)]))) := by
  have hshapeAll : ∀ op ∈ (TearDownPod E plugin pod).2,
      op = Op.lock (buildFullPodName pod) ∨ op = Op.unlock (buildFullPodName pod) ∨
      ∃ net j, op = Op.del net (ethName j) := by
    intro op hmem
    cases hinit : checkInitialized plugin pod with
    | some e => simp [TearDownPod, hinit] at hmem
    | none =>
      rcases hfe : forEachNetwork plugin pod (teardownCallback E) ()
        with ⟨u, ops, rr⟩
      have hsnd := teardown_forEach_snd E plugin pod ()
      rw [hfe] at hsnd
      have hops : ops = (goSpec plugin Op.del (delErrF E pod)
          (resolveNames plugin pod) 0).1 := by
        rw [← hsnd]
      simp [TearDownPod, hinit, hfe] at hmem
      rcases hmem with h | h | h
      · exact Or.inl h
      · exact Or.inr (Or.inr (goSpec_ops_shape plugin Op.del (delErrF E pod)
          (resolveNames plugin pod) 0 _ (hops ▸ h)))
      · exact Or.inr (Or.inl h)
  refine ⟨hshapeAll, ?_, ?_, ?_, ?_⟩
  · intro op hmem
    rcases hshapeAll op hmem with h | h | ⟨net, j, h⟩ <;> subst h
    · simp [opIfName]
    · simp [opIfName]
    · simpa [opIfName] using ethName_ne_lo j
  · intro net ifn hmem
    rcases hshapeAll _ hmem with h | h | ⟨net', j, h⟩ <;> exact Op.noConfusion h
  · intro hinit hok
    rcases hfe : forEachNetwork plugin pod (teardownCallback E) ()
      with ⟨u, ops, rr⟩
    have hsnd := teardown_forEach_snd E plugin pod ()
    rw [hfe, goSpec_of_allOk plugin Op.del (delErrF E pod)
      (resolveNames plugin pod) 0 hok] at hsnd
    injection hsnd with h1 h2
    subst h1
    subst h2
    simp [TearDownPod, hinit, hfe]
  · intro pre bad post badNet msg hinit hres hpre hbad hbaddel
    have hpreSpec := goSpec_of_allOk plugin Op.del (delErrF E pod) pre 0 hpre
    have hbadErr : delErrF E pod badNet (ethName (0 + pre.length))
        = some (OpError.engine msg) := by
      unfold delErrF
      rw [Nat.zero_add, hbaddel]
    have hbadSpec : goSpec plugin Op.del (delErrF E pod) (bad :: post) (0 + pre.length)
        = ([Op.del badNet (ethName pre.length)], some (OpError.engine msg)) := by
      simp only [goSpec, hbad, hbadErr]
      rw [Nat.zero_add]
    have happ := goSpec_append_ok plugin Op.del (delErrF E pod) pre (bad :: post) 0
      (plannedOps plugin Op.del pre 0) hpreSpec
    rw [hbadSpec] at happ
    have hfull : goSpec plugin Op.del (delErrF E pod) (resolveNames plugin pod) 0
        = (plannedOps plugin Op.del pre 0 ++ [Op.del badNet (ethName pre.length)],
           some (OpError.engine msg)) := by
      rw [hres, happ]
    rcases hfe : forEachNetwork plugin pod (teardownCallback E) ()
      with ⟨u, ops, rr⟩
    have hsnd := teardown_forEach_snd E plugin pod ()
    rw [hfe, hfull] at hsnd
    injection hsnd with h1 h2
    subst h1
    subst h2
    simp [TearDownPod, hinit, hfe]

/-- Witness for C5: tearing down ["net-a", "net-b"] against `p0` emits
exactly the two detaches in request order, and nothing touches "lo". -/
theorem C5_teardown_witness :
    TearDownPod okEngine p0 pod1 =
      (none, Op.lock (buildFullPodName pod1) ::
        (plannedOps p0 Op.del (resolveNames p0 pod1) 0 ++
          [Op.unlock (buildFullPodName pod1)])) :=
  (C5_teardown okEngine p0 pod1).2.2.2.1 rfl (by decide)

/-- Claim C3: the network list is the explicit request list verbatim, or
the single default name when the request list is empty; the network at
position i is operated on with interface name "eth{i}", so a resolved
list of length N uses exactly "eth0".."eth{N-1}" in request order for
SetUp, TearDown and Status alike; and a resolved name absent from the
registry fails each call with the NetworkNotFound error for the first
missing name. -/
theorem C3_resolution_naming (E : Engine) (plugin : PluginState) (pod : PodNetwork) :
    (pod.Networks ≠ [] → resolveNames plugin pod = pod.Networks) ∧
    (pod.Networks = [] → resolveNames plugin pod = [getDefaultNetworkName plugin]) ∧
    (∀ mk : cniNetwork → String → Op, (∀ net ifn, opIfName (mk net ifn) = ifn) →
      allFoundB plugin (resolveNames plugin pod) = true →
      (plannedOps plugin mk (resolveNames plugin pod) 0).map opIfName =
        (List.range (resolveNames plugin pod).length).map ethName) ∧
    (∀ r0, checkInitialized plugin pod = none →
      E.add plugin.loNetwork.NetworkConfig plugin.loNetwork.path
          (buildCNIRuntimeConf pod "lo") = Except.ok r0 →
      allStepsOk plugin (addErrF E pod) (resolveNames plugin pod) 0 = true →
      (SetUpPod E plugin pod).2 =
        Op.lock (buildFullPodName pod) :: Op.add plugin.loNetwork "lo" ::
          (plannedOps plugin Op.add (resolveNames plugin pod) 0 ++
           [Op.unlock (buildFullPodName pod)])) ∧
    (checkInitialized plugin pod = none →
      allStepsOk plugin (delErrF E pod) (resolveNames plugin pod) 0 = true →
      (TearDownPod E plugin pod).2 =
        Op.lock (buildFullPodName pod) ::
          (plannedOps plugin Op.del (resolveNames plugin pod) 0 ++
           [Op.unlock (buildFullPodName pod)])) ∧
    (allStepsOk plugin (inspErrF E pod) (resolveNames plugin pod) 0 = true →
      (GetPodNetworkStatus E plugin pod).2 =
        Op.lock (buildFullPodName pod) ::
          (plannedOps plugin (fun _ ifn => Op.inspect pod.NetNS ifn)
              (resolveNames plugin pod) 0 ++
           [Op.unlock (buildFullPodName pod)])) ∧
    (∀ m, checkInitialized plugin pod = none →
      (∀ nc pth rt, (E.add nc pth rt).isOk = true) →
      firstMissing plugin (resolveNames plugin pod) = some m →
      (SetUpPod E plugin pod).1 = Except.error (OpError.networkNotFound m)) ∧
    (∀ m, checkInitialized plugin pod = none →
      (∀ nc pth rt, E.del nc pth rt = none) →
      firstMissing plugin (resolveNames plugin pod) = some m →
      (TearDownPod E plugin pod).1 = some (OpError.networkNotFound m)) ∧
    (∀ m, (∀ netns ifn, (E.inspect netns ifn).isOk = true) →
      firstMissing plugin (resolveNames plugin pod) = some m →
      (GetPodNetworkStatus E plugin pod).1 =
        Except.error (OpError.networkNotFound m)) := by
  refine ⟨?_, ?_, ?_, ?_, ?_, ?_, ?_, ?_, ?_⟩
  · intro h
    unfold resolveNames
    rw [if_neg (by simpa [List.isEmpty_iff] using h)]
  · intro h
    unfold resolveNames
    rw [if_pos (by simpa [List.isEmpty_iff] using h)]
  · intro mk hmk hfound
    rw [plannedOps_map_ifName plugin mk hmk (resolveNames plugin pod) 0 hfound,
      List.range_eq_range']
  · intro r0 hinit hlo hok
    have hcb : addToNetwork E plugin.loNetwork pod "lo"
        = (Except.ok r0, [Op.add plugin.loNetwork "lo"]) := by
      unfold addToNetwork; rw [hlo]
    rcases hfe : forEachNetwork plugin pod (setupCallback E) []
      with ⟨results, ops, rr⟩
    have hsnd := setup_forEach_snd E plugin pod []
    rw [hfe, goSpec_of_allOk plugin Op.add (addErrF E pod)
      (resolveNames plugin pod) 0 hok] at hsnd
    injection hsnd with h1 h2
    subst h1
    subst h2
    simp [SetUpPod, hinit, hcb, hfe]
  · intro hinit hok
    rcases hfe : forEachNetwork plugin pod (teardownCallback E) ()
      with ⟨u, ops, rr⟩
    have hsnd := teardown_forEach_snd E plugin pod ()
    rw [hfe, goSpec_of_allOk plugin Op.del (delErrF E pod)
      (resolveNames plugin pod) 0 hok] at hsnd
    injection hsnd with h1 h2
    subst h1
    subst h2
    simp [TearDownPod, hinit, hfe]
  · intro hok
    rcases hfe : forEachNetwork plugin pod (statusCallback E) []
      with ⟨results, ops, rr⟩
    have hsnd := status_forEach_snd E plugin pod []
    rw [hfe, goSpec_of_allOk plugin (fun _ ifn => Op.inspect pod.NetNS ifn)
      (inspErrF E pod) (resolveNames plugin pod) 0 hok] at hsnd
    injection hsnd with h1 h2
    subst h1
    subst h2
    simp [GetPodNetworkStatus, hfe]
  · intro m hinit hAdd hmiss
    have hErrNone : ∀ net ifn, addErrF E pod net ifn = none := by
      intro net ifn
      unfold addErrF
      cases hadd : E.add net.NetworkConfig net.path (buildCNIRuntimeConf pod ifn) with
      | error msg =>
        have := hAdd net.NetworkConfig net.path (buildCNIRuntimeConf pod ifn)
        rw [hadd] at this
        cases this
      | ok r => rfl
    cases hlo : E.add plugin.loNetwork.NetworkConfig plugin.loNetwork.path
        (buildCNIRuntimeConf pod "lo") with
    | error msg =>
      have := hAdd plugin.loNetwork.NetworkConfig plugin.loNetwork.path
        (buildCNIRuntimeConf pod "lo")
      rw [hlo] at this
      cases this
    | ok r0 =>
      have hcb : addToNetwork E plugin.loNetwork pod "lo"
          = (Except.ok r0, [Op.add plugin.loNetwork "lo"]) := by
        unfold addToNetwork; rw [hlo]
      rcases hfe : forEachNetwork plugin pod (setupCallback E) []
        with ⟨results, ops, rr⟩
      have hsnd := setup_forEach_snd E plugin pod []
      rw [hfe, goSpec_of_errF_none plugin Op.add (addErrF E pod) hErrNone
        (resolveNames plugin pod) 0, hmiss] at hsnd
      injection hsnd with h1 h2
      subst h1
      subst h2
      simp [SetUpPod, hinit, hcb, hfe]
  · intro m hinit hDel hmiss
    have hErrNone : ∀ net ifn, delErrF E pod net ifn = none := by
      intro net ifn
      unfold delErrF
      rw [hDel net.NetworkConfig net.path (buildCNIRuntimeConf pod ifn)]
    rcases hfe : forEachNetwork plugin pod (teardownCallback E) ()
      with ⟨u, ops, rr⟩
    have hsnd := teardown_forEach_snd E plugin pod ()
    rw [hfe, goSpec_of_errF_none plugin Op.del (delErrF E pod) hErrNone
      (resolveNames plugin pod) 0, hmiss] at hsnd
    injection hsnd with h1 h2
    subst h1
    subst h2
    simp [TearDownPod, hinit, hfe]
  · intro m hInsp hmiss
    have hErrNone : ∀ net ifn, inspErrF E pod net ifn = none := by
      intro net ifn
      unfold inspErrF
      cases hi : E.inspect pod.NetNS ifn with
      | error msg =>
        have := hInsp pod.NetNS ifn
        rw [hi] at this
        cases this
      | ok im => rfl
    rcases hfe : forEachNetwork plugin pod (statusCallback E) []
      with ⟨results, ops, rr⟩
    have hsnd := status_forEach_snd E plugin pod []
    rw [hfe, goSpec_of_errF_none plugin (fun _ ifn => Op.inspect pod.NetNS ifn)
      (inspErrF E pod) hErrNone (resolveNames plugin pod) 0, hmiss] at hsnd
    injection hsnd with h1 h2
    subst h1
    subst h2
    simp [GetPodNetworkStatus, hfe]

/-- Witness for C3: setting up ["net-a", "net-b"] against `p0` emits the
loopback attach on "lo" followed by exactly the positional attaches of
the two requested networks. -/
theorem C3_resolution_naming_witness :
    (SetUpPod okEngine p0 pod1).2 =
      Op.lock (buildFullPodName pod1) :: Op.add p0.loNetwork "lo" ::
        (plannedOps p0 Op.add (resolveNames p0 pod1) 0 ++
         [Op.unlock (buildFullPodName pod1)]) :=
  (C3_resolution_naming okEngine p0 pod1).2.2.2.1 { raw := 7 } rfl rfl (by decide)
